import Mathlib

/-!
Verification development for the agentic-idp document-verification pipeline and
the strandsdk RAG embedding retriever.

The Python sources are shallowly embedded:

* strings are `List Char` (`Str`); Python machine floats that only ever hold
  parsed decimal literals and their ratios are modelled as `ℚ`;
* the specific `re` patterns used by the code are embedded as values of a
  small regular-expression AST `Re` together with a backtracking matcher
  `matchRe`/`searchRe` that follows Python `re` semantics (leftmost search,
  greedy quantifiers with backtracking, ordered alternation, word
  boundaries); `json.loads` on the brace-free object snippets cut out by the
  code's regexes is embedded as an executable JSON reader;
* `async` LLM calls are modelled by an oracle `Nat → Except Str Str` giving,
  per attempt index, either a raised exception or the response content;
  a broad `except` around otherwise pure code is modelled by an explicit
  `Option Str` exception-injection parameter.
-/

attribute [local semireducible] Rat.add Rat.mul Rat.inv Rat.sub

set_option maxRecDepth 100000

abbrev Str := List Char

def charsOf (s : String) : Str := s.data

/-- Python `str.isdigit`-style ASCII digit test used by the `[0-9]` classes. -/
def isDigitCh (c : Char) : Bool := c.isDigit

/-- The whitespace characters recognised by Python `str.strip()` (via
`str.isspace`) and by the regex class `\s` on `str` patterns: the six ASCII
ones, the C1 separators, NEL, NBSP and the Unicode space separators. -/
def isPyWs (c : Char) : Bool :=
  c = ' ' || c = '\t' || c = '\n' || c = '\r' || c = '\x0b' || c = '\x0c' ||
  (28 ≤ c.toNat && c.toNat ≤ 31) || c.toNat = 133 || c.toNat = 160 ||
  c.toNat = 0x1680 || (0x2000 ≤ c.toNat && c.toNat ≤ 0x200a) ||
  c.toNat = 0x2028 || c.toNat = 0x2029 || c.toNat = 0x202f ||
  c.toNat = 0x205f || c.toNat = 0x3000

/-- Python `\w` (ASCII part): letters, digits and underscore. -/
def isWordChar (c : Char) : Bool := c.isAlphanum || c = '_'

/-- `isPrefixCh needle hay` : does `hay` start with `needle`? -/
def isPrefixCh : Str → Str → Bool
  | [], _ => true
  | _ :: _, [] => false
  | c :: cs, d :: ds => c = d && isPrefixCh cs ds

/-- Python's substring test `needle in hay` (empty needle is contained). -/
def containsSub (hay needle : Str) : Bool :=
  isPrefixCh needle hay ||
    match hay with
    | [] => false
    | _ :: t => containsSub t needle

/-- Python `str.strip()` from the left only. -/
def pyStripL (s : Str) : Str := s.dropWhile isPyWs

/-- Python `str.strip()`: drop whitespace at both ends. -/
def pyStrip (s : Str) : Str := ((pyStripL s.reverse).reverse).dropWhile isPyWs

/-- Worker for `replaceAll`; `fuel` bounds the number of characters still to
be scanned (each step consumes at least one input character and one unit of
fuel, so `fuel = s.length` suffices). -/
def replaceAllGo (pat repl : Str) : Nat → Str → Str
  | _, [] => []
  | 0, s => s
  | fuel + 1, c :: t =>
    if isPrefixCh pat (c :: t) then
      repl ++ replaceAllGo pat repl fuel (t.drop (pat.length - 1))
    else c :: replaceAllGo pat repl fuel t

/-- Python `str.replace(pat, repl)`: replace all non-overlapping occurrences,
scanning left to right.  (`pat = []` is never used by the embedded code;
it returns the string unchanged.) -/
def replaceAll (s pat repl : Str) : Str :=
  match pat with
  | [] => s
  | _ :: _ => replaceAllGo pat repl s.length s

/-- Helper for `afterLastTag`: scan the string, remembering the remainder
after the most recent occurrence of `tag`. -/
def afterLastTagGo (tag : Str) : Str → Option Str → Option Str
  | [], acc => acc
  | c :: t, acc =>
    afterLastTagGo tag t
      (if isPrefixCh tag (c :: t) then some ((c :: t).drop tag.length) else acc)

/-- Python `s.split(tag)[-1]` for a tag that cannot overlap itself
(`"</think>"`): the substring after the last occurrence of `tag`,
or `s` itself when `tag` does not occur. -/
def afterLastTag (s tag : Str) : Str :=
  match afterLastTagGo tag s none with
  | some r => r
  | none => s

/-! ## A small regex AST and Python-style backtracking matcher

Only the constructs appearing in the embedded patterns are supported:
literals (case sensitive `lit` / IGNORECASE `liti`), single-character
classes `cls`, greedy `[..]*` (`star`), greedy `[..]?` (`opt`),
sequencing, ordered alternation, one numbered capture group, and the word
boundary `\b` (`bnd`).  `[..]+` is `rePlus`, i.e. `[..][..]*`. -/

inductive Re where
  | lit  : Str → Re
  | liti : Str → Re
  | cls  : (Char → Bool) → Re
  | star : (Char → Bool) → Re
  | opt  : (Char → Bool) → Re
  | seq  : Re → Re → Re
  | alt  : Re → Re → Re
  | grp  : Nat → Re → Re
  | bnd  : Re

/-- Greedy `[..]+` as `[..][..]*`, which backtracks identically in `re`. -/
def rePlus (f : Char → Bool) : Re := Re.seq (.cls f) (.star f)

abbrev ReGroups := List (Nat × Str)

/-- Strip a literal from the head of the input, case sensitive or not,
returning the last input character consumed (for `\b` tracking) and the rest. -/
def litMatch (ci : Bool) : Str → Str → Option Char → Option (Option Char × Str)
  | [], s, last => some (last, s)
  | _ :: _, [], _ => none
  | c :: cs, d :: ds, _ =>
    if (if ci then c.toLower = d.toLower else c = d) then litMatch ci cs ds (some d)
    else none

/-- Backtracking for a greedy `[..]*`: `consumedRev` is the (reversed) run the
star currently holds; try the continuation, then give back one character at a
time, exactly as `re`'s greedy backtracking does. -/
def starBack (prev : Option Char)
    (k : Option Char → Str → ReGroups → Option (Str × ReGroups)) :
    Str → Str → ReGroups → Option (Str × ReGroups)
  | consumedRev, rest, g =>
    match k (match consumedRev with | c :: _ => some c | [] => prev) rest g with
    | some r => some r
    | none =>
      match consumedRev with
      | [] => none
      | c :: cs => starBack prev k cs (c :: rest) g

/-- The matcher.  `prev` is the character just before the current position
(for `\b`), `k` the continuation receiving the updated `prev`, the remaining
input and the capture groups recorded so far.  It returns, on success, the
input remaining after the whole pattern together with the groups.  The
traversal order reproduces Python `re` backtracking: greedy quantifiers,
left-first alternation. -/
def matchRe : Re → Option Char → Str → ReGroups →
    (Option Char → Str → ReGroups → Option (Str × ReGroups)) →
    Option (Str × ReGroups)
  | .lit l, prev, s, g, k =>
    match litMatch false l s none with
    | some (last, rest) => k (last.orElse fun _ => prev) rest g
    | none => none
  | .liti l, prev, s, g, k =>
    match litMatch true l s none with
    | some (last, rest) => k (last.orElse fun _ => prev) rest g
    | none => none
  | .cls f, _, s, g, k =>
    match s with
    | c :: rest => if f c then k (some c) rest g else none
    | [] => none
  | .star f, prev, s, g, k =>
    starBack prev k (s.takeWhile f).reverse (s.dropWhile f) g
  | .opt f, prev, s, g, k =>
    (match s with
     | c :: rest =>
       if f c then
         match k (some c) rest g with
         | some r => some r
         | none => k prev s g
       else k prev s g
     | [] => k prev s g)
  | .seq a b, prev, s, g, k =>
    matchRe a prev s g (fun p2 s2 g2 => matchRe b p2 s2 g2 k)
  | .alt a b, prev, s, g, k =>
    (match matchRe a prev s g k with
     | some r => some r
     | none => matchRe b prev s g k)
  | .grp n r, prev, s, g, k =>
    matchRe r prev s g (fun p2 s2 g2 => k p2 s2 ((n, s.take (s.length - s2.length)) :: g2))
  | .bnd, prev, s, g, k =>
    let leftWord := match prev with | some c => isWordChar c | none => false
    let rightWord := match s with | c :: _ => isWordChar c | [] => false
    if leftWord != rightWord then k prev s g else none

/-- Python `re.search`: try a match at every start position, left to right.
Returns `(full match, rest of input after the match, groups)`. -/
def searchRe (r : Re) : Option Char → Str → Option (Str × Str × ReGroups)
  | prev, s =>
    match matchRe r prev s [] (fun _ rest g => some (rest, g)) with
    | some (rest, g) => some (s.take (s.length - rest.length), rest, g)
    | none =>
      match s with
      | [] => none
      | c :: t => searchRe r (some c) t

/-- First recorded value of capture group `n`. -/
def lookupGroup (g : ReGroups) (n : Nat) : Option Str :=
  (g.find? (fun p => p.1 == n)).map (fun p => p.2)

/-- Worker for `findallRe`; `fuel` bounds the number of matches (each match
consumes at least one input character). -/
def findallReGo (r : Re) : Nat → Option Char → Str → List (Str × ReGroups)
  | 0, _, _ => []
  | fuel + 1, prev, s =>
    match searchRe r prev s with
    | none => []
    | some (full, rest, g) =>
      if rest.length < s.length then
        (full, g) :: findallReGo r fuel (full.getLast?.orElse fun _ => prev) rest
      else [(full, g)]

/-- Python `re.findall` for patterns whose matches are never empty: repeated
`search`, resuming after each match (threading the last matched character as
the new left context for `\b`). -/
def findallRe (r : Re) (s : Str) : List (Str × ReGroups) :=
  findallReGo r (s.length + 1) none s

example : containsSub (charsOf "hello world") (charsOf "lo w") = true := by decide
example : pyStrip (charsOf "  a b  ") = charsOf "a b" := by decide
example : replaceAll (charsOf "a``b``c") (charsOf "``") [] = charsOf "abc" := by decide
example : afterLastTag (charsOf "x</think>y</think> z") (charsOf "</think>") =
    charsOf " z" := by decide

/-! ## `json.loads` on brace-free object snippets

The code only ever calls `json.loads` on the text matched by the regex
`\x7b[^\x7b\x7d]*"confidence_score"[^\x7b\x7d]*"message"[^\x7b\x7d]*\x7d`, i.e. a
single object whose interior contains no braces, so values are strings,
numbers, booleans, `null`, or (nested) arrays of these — never objects.
Numbers are modelled exactly as rationals; the non-standard `NaN`/`Infinity`
extensions of Python's reader are outside the model. -/

inductive Jv where
  | num  : ℚ → Jv
  | str  : Str → Jv
  | bool : Bool → Jv
  | null : Jv
  | arr  : List Jv → Jv

/-- JSON structural whitespace (space, tab, newline, carriage return). -/
def isJsonWs (c : Char) : Bool := c = ' ' || c = '\t' || c = '\n' || c = '\r'

def skipWs (s : Str) : Str := s.dropWhile isJsonWs

def digitVal (c : Char) : Nat := c.toNat - '0'.toNat

def natOfDigits (l : Str) : Nat := l.foldl (fun a c => a * 10 + digitVal c) 0

def isHexDigitCh (c : Char) : Bool := c.isDigit || ('a' ≤ c && c ≤ 'f') || ('A' ≤ c && c ≤ 'F')

def hexVal (c : Char) : Nat :=
  if c.isDigit then c.toNat - '0'.toNat
  else if 'a' ≤ c && c ≤ 'f' then c.toNat - 'a'.toNat + 10
  else c.toNat - 'A'.toNat + 10

/-- Strict JSON integer part: `0`, or a nonzero digit followed by digits
(leading zeros rejected, as in Python's json). -/
def parseJIntPart : Str → Option (Nat × Str)
  | '0' :: t =>
    match t with
    | c :: _ => if c.isDigit then none else some (0, t)
    | [] => some (0, t)
  | c :: t =>
    if c.isDigit then
      let ds := (c :: t).takeWhile Char.isDigit
      some (natOfDigits ds, (c :: t).drop ds.length)
    else none
  | [] => none

/-- Optional JSON fraction `.digits` (a bare dot is a hard failure). -/
def parseJFrac : Str → Option (ℚ × Str)
  | '.' :: t =>
    let ds := t.takeWhile Char.isDigit
    if ds.isEmpty then none
    else some ((natOfDigits ds : ℚ) / (10 : ℚ) ^ ds.length, t.drop ds.length)
  | s => some (0, s)

/-- Optional JSON exponent `[eE][+-]?digits`. -/
def parseJExp : Str → Option (ℤ × Str)
  | c :: t =>
    if c = 'e' || c = 'E' then
      let (negE, t2) := match t with
        | '-' :: u => (true, u)
        | '+' :: u => (false, u)
        | u => (false, u)
      let ds := t2.takeWhile Char.isDigit
      if ds.isEmpty then none
      else some ((if negE then -(natOfDigits ds : ℤ) else (natOfDigits ds : ℤ)), t2.drop ds.length)
    else some (0, c :: t)
  | [] => some (0, [])

/-- Strict JSON number to an exact rational. -/
def parseJNumber (s : Str) : Option (ℚ × Str) :=
  let (neg, s1) := match s with
    | '-' :: t => (true, t)
    | _ => (false, s)
  match parseJIntPart s1 with
  | none => none
  | some (ip, r1) =>
    match parseJFrac r1 with
    | none => none
    | some (fp, r2) =>
      match parseJExp r2 with
      | none => none
      | some (ex, r3) =>
        let v : ℚ := ((ip : ℚ) + fp) * (10 : ℚ) ^ ex
        some ((if neg then -v else v), r3)

/-- Body of a JSON string after the opening quote: strict (raw control
characters rejected), with the standard escapes. -/
def parseJStringBody : Nat → Str → Option (Str × Str)
  | 0, _ => none
  | fuel + 1, s =>
    match s with
    | [] => none
    | '"' :: rest => some ([], rest)
    | '\\' :: e :: rest =>
      (match e with
       | '"' => (parseJStringBody fuel rest).map (fun p => ('"' :: p.1, p.2))
       | '\\' => (parseJStringBody fuel rest).map (fun p => ('\\' :: p.1, p.2))
       | '/' => (parseJStringBody fuel rest).map (fun p => ('/' :: p.1, p.2))
       | 'b' => (parseJStringBody fuel rest).map (fun p => ('\x08' :: p.1, p.2))
       | 'f' => (parseJStringBody fuel rest).map (fun p => ('\x0c' :: p.1, p.2))
       | 'n' => (parseJStringBody fuel rest).map (fun p => ('\n' :: p.1, p.2))
       | 'r' => (parseJStringBody fuel rest).map (fun p => ('\r' :: p.1, p.2))
       | 't' => (parseJStringBody fuel rest).map (fun p => ('\t' :: p.1, p.2))
       | 'u' =>
         match rest with
         | h1 :: h2 :: h3 :: h4 :: rest2 =>
           if isHexDigitCh h1 && isHexDigitCh h2 && isHexDigitCh h3 && isHexDigitCh h4 then
             let n := ((hexVal h1 * 16 + hexVal h2) * 16 + hexVal h3) * 16 + hexVal h4
             (parseJStringBody fuel rest2).map (fun p => (Char.ofNat n :: p.1, p.2))
           else none
         | _ => none
       | _ => none)
    | c :: rest =>
      if c.toNat < 32 then none
      else (parseJStringBody fuel rest).map (fun p => (c :: p.1, p.2))

mutual

/-- A JSON value other than an object (objects cannot occur inside the
brace-free snippets this reader is applied to). -/
def parseJValue (fuel : Nat) (s : Str) : Option (Jv × Str) :=
  match fuel with
  | 0 => none
  | fuel + 1 =>
    match skipWs s with
    | '"' :: rest => (parseJStringBody fuel rest).map (fun p => (.str p.1, p.2))
    | 't' :: rest =>
      if isPrefixCh (charsOf "rue") rest then some (.bool true, rest.drop 3) else none
    | 'f' :: rest =>
      if isPrefixCh (charsOf "alse") rest then some (.bool false, rest.drop 4) else none
    | 'n' :: rest =>
      if isPrefixCh (charsOf "ull") rest then some (.null, rest.drop 3) else none
    | '[' :: rest =>
      (match skipWs rest with
       | ']' :: r2 => some (.arr [], r2)
       | _ => (parseJItems fuel rest).map (fun p => (.arr p.1, p.2)))
    | s2 => (parseJNumber s2).map (fun p => (.num p.1, p.2))

/-- Comma-separated array items up to the closing bracket. -/
def parseJItems (fuel : Nat) (s : Str) : Option (List Jv × Str) :=
  match fuel with
  | 0 => none
  | fuel + 1 =>
    match parseJValue fuel s with
    | none => none
    | some (v, r) =>
      match skipWs r with
      | ',' :: r2 => (parseJItems fuel r2).map (fun p => (v :: p.1, p.2))
      | ']' :: r2 => some ([v], r2)
      | _ => none

end

/-- `"key": value` pairs of a flat object up to the closing brace. -/
def parseJPairs (fuel : Nat) (s : Str) : Option (List (Str × Jv) × Str) :=
  match fuel with
  | 0 => none
  | fuel + 1 =>
    match skipWs s with
    | '"' :: rest =>
      (match parseJStringBody (fuel + 1) rest with
       | none => none
       | some (key, r) =>
         match skipWs r with
         | ':' :: r2 =>
           (match parseJValue (fuel + 1) r2 with
            | none => none
            | some (v, r3) =>
              match skipWs r3 with
              | ',' :: r4 => (parseJPairs fuel r4).map (fun p => ((key, v) :: p.1, p.2))
              | '}' :: r4 => some ([(key, v)], r4)
              | _ => none)
         | _ => none)
    | _ => none

/-- `json.loads` specialised to a single flat object covering the whole
input; returns the key/value pairs in textual order. -/
def jsonLoadsObject (m : Str) : Option (List (Str × Jv)) :=
  match skipWs m with
  | '{' :: rest =>
    (match skipWs rest with
     | '}' :: r2 => if (skipWs r2).isEmpty then some [] else none
     | _ =>
       match parseJPairs (m.length + 1) rest with
       | some (pairs, r) => if (skipWs r).isEmpty then some pairs else none
       | none => none)
  | _ => none

/-- Python `dict.get`: with duplicate keys the later binding wins
(`json.loads` builds the dict in textual order). -/
def dictGet (pairs : List (Str × Jv)) (key : Str) : Option Jv :=
  (pairs.reverse.find? (fun p => p.1 == key)).map (fun p => p.2)

example :
    jsonLoadsObject (charsOf "\x7b\"confidence_score\": 0.85, \"message\": \"ok\"\x7d") =
      some [(charsOf "confidence_score", Jv.num (17/20)), (charsOf "message", Jv.str (charsOf "ok"))] := by
  rfl
example : jsonLoadsObject (charsOf "\x7b\"a\": [1, true, null]\x7d") =
    some [(charsOf "a", Jv.arr [Jv.num 1, Jv.bool true, Jv.null])] := by rfl
example : jsonLoadsObject (charsOf "\x7b\"a\": 01\x7d") = none := by rfl
example : jsonLoadsObject (charsOf "\x7b\"b\": -1.5e-1\x7d") =
    some [(charsOf "b", Jv.num (-(3/20)))] := by rfl

/-! ## `route_after_reflection` (agentic_idp.py lines 253-343)

The router takes the last message content, cleans it (strip, cut after the
last `</think>`, remove markdown fences, strip), then tries three extraction
approaches in order, and threshold-routes on the extracted score. -/

def thinkOpenTag : Str := charsOf "<think>"
def thinkCloseTag : Str := charsOf "</think>"
def fenceJsonTag : Str := charsOf "```json"
def fenceTag : Str := charsOf "```"

/-- The message clean-up at the top of `route_after_reflection`:
`strip`, cut everything up to the last `</think>` when both think tags are
present (and strip), then delete all markdown fences and strip again. -/
def cleanMessage (m : Str) : Str :=
  let s := pyStrip m
  let s := if containsSub s thinkOpenTag && containsSub s thinkCloseTag then
      pyStrip (afterLastTag s thinkCloseTag)
    else s
  let s := replaceAll s fenceJsonTag []
  let s := replaceAll s fenceTag []
  pyStrip s

def nonBrace (c : Char) : Bool := c != '{' && c != '}'

/-- `r'\x7b[^\x7b\x7d]*"confidence_score"[^\x7b\x7d]*"message"[^\x7b\x7d]*\x7d'`
(braces written escaped here): a brace-delimited snippet, with no inner
braces, containing `"confidence_score"` and then `"message"`. -/
def jsonObjRe : Re :=
  .seq (.lit ['{'])
    (.seq (.star nonBrace)
      (.seq (.lit (charsOf "\"confidence_score\""))
        (.seq (.star nonBrace)
          (.seq (.lit (charsOf "\"message\""))
            (.seq (.star nonBrace) (.lit ['}']))))))

/-- `r'"confidence_score":\s*([0-9]*\.?[0-9]+)'`. -/
def scoreRe : Re :=
  .seq (.lit (charsOf "\"confidence_score\":"))
    (.seq (.star isPyWs)
      (.grp 1 (.seq (.star isDigitCh) (.seq (.opt (fun c => c = '.')) (rePlus isDigitCh)))))

/-- `r'\b(0\.[0-9]+|1\.0+|0)\b'`. -/
def bareNumberRe : Re :=
  .seq .bnd
    (.seq
      (.grp 1
        (.alt (.seq (.lit (charsOf "0.")) (rePlus isDigitCh))
          (.alt (.seq (.lit (charsOf "1.")) (rePlus (fun c => c = '0')))
            (.lit (charsOf "0")))))
      .bnd)

/-- Python `float` on the decimal groups matched by `scoreRe`/`bareNumberRe`
(`[0-9]*\.?[0-9]+`), as an exact rational. -/
def decimalToRat (s : Str) : Option ℚ :=
  let ip := s.takeWhile Char.isDigit
  let r := s.drop ip.length
  match r with
  | [] => if ip.isEmpty then none else some ((natOfDigits ip : ℕ) : ℚ)
  | '.' :: fp =>
    if fp.isEmpty || !(fp.all Char.isDigit) then none
    else some (((natOfDigits ip : ℕ) : ℚ) + ((natOfDigits fp : ℕ) : ℚ) / (10 : ℚ) ^ fp.length)
  | _ => none

/-- Approach 1: search for the complete JSON object snippet, `json.loads` it
and read the `confidence_score` key.  Yields `none` exactly when Python's
`confidence_score` variable is still `None` afterwards: no regex match, a
`JSONDecodeError`, a missing key, or a JSON `null` value. -/
def approach1 (s : Str) : Option Jv :=
  match searchRe jsonObjRe none s with
  | some (m, _, _) =>
    (match jsonLoadsObject m with
     | some pairs =>
       match dictGet pairs (charsOf "confidence_score") with
       | some .null => none
       | some v => some v
       | none => none
     | none => none)
  | none => none

/-- Approach 2: search for the `"confidence_score":` key-value pattern and
`float` its group. -/
def approach2 (s : Str) : Option ℚ :=
  match searchRe scoreRe none s with
  | some (_, _, g) => (lookupGroup g 1).bind decimalToRat
  | none => none

/-- Approach 3: `re.findall` all bare decimals in `[0,1]` shape and take the
first whose value lies in `[0,1]` (the code's own range filter). -/
def approach3 (s : Str) : Option ℚ :=
  let nums := (findallRe bareNumberRe s).filterMap (fun p => (lookupGroup p.2 1).bind decimalToRat)
  nums.find? (fun q => decide (0 ≤ q) && decide (q ≤ 1))

/-- The extraction cascade of `route_after_reflection`: approach 2 runs only
when approach 1 left `confidence_score` as `None`, approach 3 only when
approaches 1 and 2 both did. -/
def extractConfidence (s : Str) : Option Jv :=
  match approach1 s with
  | some v => some v
  | none =>
    match approach2 s with
    | some q => some (.num q)
    | none => (approach3 s).map Jv.num

/-- How Python's `confidence_score < 0.75` sees an extracted JSON value:
numbers compare as numbers, booleans as 0/1 (`bool` is an `int` subclass);
a string or list raises `TypeError`, which the router's broad `except`
catches (modelled as `none`). -/
def scoreOfJv : Jv → Option ℚ
  | .num q => some q
  | .bool b => some (if b then 1 else 0)
  | _ => none

/-- The body of `route_after_reflection` applied to the content of the last
message: extract, then route with threshold `0.75`; every failure mode
(no score, `TypeError` from a non-numeric score) falls to `"human_approval"`. -/
def routeOnMessage (m : Str) : String :=
  match extractConfidence (cleanMessage m) with
  | none => "human_approval"
  | some v =>
    match scoreOfJv v with
    | none => "human_approval"
    | some q => if q < 3/4 then "human_approval" else "automatic_approval"

/-- `route_after_reflection` on the state's message list.
`last_message = state["messages"][-1].content` (line 258) executes BEFORE
the `try` block (line 264), so on an empty message list the `IndexError` is
raised and propagates out of the router uncaught — no routing label is ever
produced.  That escaping exception is modelled as `none`; `some` wraps the
label computed by the `try`-guarded body. -/
def route_after_reflection (messages : List Str) : Option String :=
  match messages.getLast? with
  | none => none
  | some m => some (routeOnMessage m)

example :
    approach1 (charsOf "\x7b\"confidence_score\": 0.85, \"message\": \"ok\"\x7d") =
      some (Jv.num (17/20)) := by rfl
example : approach1 (charsOf "score 0.85") = none := by rfl
example : approach2 (charsOf "\"confidence_score\": .5") = some (1/2) := by rfl
example : approach2 (charsOf "x \"confidence_score\":7") = some 7 := by rfl
example : approach3 (charsOf "value 0.82 here") = some (41/50) := by rfl
example : approach3 (charsOf "0.5x") = some 0 := by rfl
example : approach3 (charsOf "x0.75") = none := by rfl
example : approach3 (charsOf "1.00 rest") = some 1 := by rfl
example : routeOnMessage (charsOf "```json\n\x7b\"confidence_score\": 0.85, \"message\": \"ok\"\x7d\n```") =
    "automatic_approval" := by rfl
example : routeOnMessage (charsOf "<think>maybe 0.2?</think> \x7b\"confidence_score\": 0.9, \"message\": \"m\"\x7d") =
    "automatic_approval" := by rfl
example : routeOnMessage (charsOf "confidence is 0.4") = "human_approval" := by rfl
example : routeOnMessage (charsOf "no score at all") = "human_approval" := by rfl
example : route_after_reflection [] = none := by rfl
example : route_after_reflection [charsOf "0.8"] = some "automatic_approval" := by rfl

/-! ## `reflection_node` (agentic_idp.py lines 179-230)

The LLM is modelled by an oracle `Nat → Except Str Str`: for each attempt
index, either a raised exception (`.error`) or the response content returned
by `reflect_on_report.ainvoke` (`.ok`).  (On a failed non-final attempt the
code appends an extra instruction message before retrying; the oracle being
indexed by the attempt number absorbs that changed input.)  The node strips
the content, checks for a parseable JSON answer, and retries up to
`max_attempts = 3` times; an exception on the last attempt produces the
fixed fallback message. -/

/-- The fallback content returned when the final attempt raises. -/
def fallbackReflection : Str :=
  charsOf "\x7b\"confidence_score\": 0.5, \"message\": \"Unable to complete automated assessment due to processing error. Manual review recommended.\"\x7d"

/-- The in-loop validity check: both quoted keys occur, the JSON-object regex
finds a snippet, and `json.loads` accepts that snippet. -/
def validReflection (rc : Str) : Bool :=
  containsSub rc (charsOf "\"confidence_score\"") && containsSub rc (charsOf "\"message\"") &&
    (match searchRe jsonObjRe none rc with
     | some (m, _, _) => (jsonLoadsObject m).isSome
     | none => false)

/-- Attempt index 2 (the last): a valid response is returned, an invalid one
is also returned (the loop ends and the code returns the last
`response_content`), and an exception yields the fallback. -/
def reflectionAttempt2 (oracle : Nat → Except Str Str) : Str :=
  match oracle 2 with
  | .ok raw => pyStrip raw
  | .error _ => fallbackReflection

/-- Attempt index 1: return a valid response, otherwise move to the final
attempt (both on invalid content and on an exception). -/
def reflectionAttempt1 (oracle : Nat → Except Str Str) : Str :=
  match oracle 1 with
  | .ok raw =>
    let rc := pyStrip raw
    if validReflection rc then rc else reflectionAttempt2 oracle
  | .error _ => reflectionAttempt2 oracle

/-- `reflection_node`: the 3-attempt loop, unrolled. -/
def reflection_node (oracle : Nat → Except Str Str) : Str :=
  match oracle 0 with
  | .ok raw =>
    let rc := pyStrip raw
    if validReflection rc then rc else reflectionAttempt1 oracle
  | .error _ => reflectionAttempt1 oracle

/-- `true` iff attempt `i` does not return from inside the loop, i.e. the
oracle raised or the response was not valid JSON. -/
def notEarlyReturn (oracle : Nat → Except Str Str) (i : Nat) : Bool :=
  match oracle i with
  | .ok raw => !(validReflection (pyStrip raw))
  | .error _ => true

/-! ## `verify_place_of_birth` and `call_external_service` (exteral_service.py)

The hospital database is modelled by its keys plus the two result fields the
verification claims are about (`place_verified`, `confidence_score`) and the
`error` field produced by the broad `except` handlers.  The `except` around
the pure lookup body is modelled by an exception-injection argument
`exn : Option Str` (`some e` meaning: an exception with text `e` was raised
inside the `try` block). -/

structure VerifyResult where
  place_verified : Bool
  confidence_score : ℚ
  error : Option Str
deriving DecidableEq

/-- The keys of the `known_hospitals` dict, in insertion order. -/
def knownHospitalKeys : List Str :=
  [charsOf "armidale and new england hospital",
   charsOf "royal north shore hospital",
   charsOf "westmead hospital"]

def suffixArmidale : Str := charsOf ", armidale"
def suffixNswLong : Str := charsOf ", new south wales"
def suffixNsw : Str := charsOf ", nsw"
def suffixAustralia : Str := charsOf ", australia"

/-- `place_name.lower().strip()` followed by the four conditional
`str.replace(suffix, "")` calls (each replaces every occurrence). -/
def normalizePlace (p : Str) : Str :=
  let n := pyStrip (p.map Char.toLower)
  let n := if containsSub n suffixArmidale then replaceAll n suffixArmidale [] else n
  let n := if containsSub n suffixNswLong then replaceAll n suffixNswLong [] else n
  let n := if containsSub n suffixNsw then replaceAll n suffixNsw [] else n
  let n := if containsSub n suffixAustralia then replaceAll n suffixAustralia [] else n
  n

/-- The `try` body of `verify_place_of_birth`: exact dict lookup (0.95),
then the strong partial-match loop `key in normalized or normalized in key`
over the dict in insertion order (0.90), else not verified (0.2).  (The
weaker word-overlap scan only fills the report's `partial_matches` list and
does not affect these fields.) -/
def verifyPlaceBody (place : Str) : VerifyResult :=
  let n := normalizePlace place
  if n ∈ knownHospitalKeys then ⟨true, 95/100, none⟩
  else
    match knownHospitalKeys.find? (fun k => containsSub n k || containsSub k n) with
    | some _ => ⟨true, 90/100, none⟩
    | none => ⟨false, 2/10, none⟩

/-- `verify_place_of_birth` with its broad `except`: a raised exception `e`
becomes `place_verified: False, confidence_score: 0.0, error: str(e)`. -/
def verify_place_of_birth (exn : Option Str) (place : Str) : VerifyResult :=
  match exn with
  | some e => ⟨false, 0, some e⟩
  | none => verifyPlaceBody place

/-- `r'"place_of_birth":\s*"([^"]+)"'` (method 1 of `call_external_service`). -/
def placeJsonRe : Re :=
  .seq (.lit (charsOf "\"place_of_birth\":"))
    (.seq (.star isPyWs)
      (.seq (.lit ['"']) (.seq (.grp 1 (rePlus (fun c => c != '"'))) (.lit ['"']))))

def isCommaWs (c : Char) : Bool := c = ',' || isPyWs c

def notQuoteDotNl (c : Char) : Bool := c != '"' && c != '.' && c != '\n'

def notColon (c : Char) : Bool := c != ':'

def notQuote (c : Char) : Bool := c != '"'

/-- The five `hospital_patterns`, compiled with `re.IGNORECASE`, paired with
whether the pattern has a capture group (`match.groups()` non-empty). -/
def hospitalPatternList : List (Re × Bool) :=
  [(.seq (.liti (charsOf "Armidale and New England Hospital"))
      (.seq (.star isCommaWs) (.liti (charsOf "Armidale"))), false),
   (.seq (.liti (charsOf "New England Hospital"))
      (.seq (.star isCommaWs) (.liti (charsOf "Armidale"))), false),
   (.seq (.liti (charsOf "place of birth"))
      (.seq (.star notColon)
        (.seq (.lit [':'])
          (.seq (.star isPyWs)
            (.seq (.opt (fun c => c = '"'))
              (.seq
                (.grp 1
                  (.seq (rePlus notQuoteDotNl)
                    (.seq
                      (.alt (.liti (charsOf "Hospital"))
                        (.alt (.liti (charsOf "Medical")) (.liti (charsOf "Centre"))))
                      (.star notQuoteDotNl))))
                (.opt (fun c => c = '"'))))))), true),
   (.seq (.liti (charsOf "stated as"))
      (.seq (.star isPyWs)
        (.seq (.lit ['"'])
          (.seq
            (.grp 1 (.seq (rePlus notQuote) (.seq (.liti (charsOf "Hospital")) (.star notQuote))))
            (.lit ['"'])))), true),
   (.seq (.liti (charsOf "birth"))
      (.seq (.star notColon)
        (.seq (.lit [':'])
          (.seq (.star isPyWs)
            (.seq (.opt (fun c => c = '"'))
              (.seq
                (.grp 1
                  (.seq (.star notQuoteDotNl)
                    (.seq (.liti (charsOf "Hospital")) (.star notQuoteDotNl))))
                (.opt (fun c => c = '"'))))))), true)]

/-- `re.sub(r'[,\s]*$', '', s)`: delete the trailing run of commas and
whitespace. -/
def dropTrailingCommaWs (s : Str) : Str := (s.reverse.dropWhile isCommaWs).reverse

/-- `.strip()` then the trailing-comma cleanup applied to a pattern match. -/
def cleanExtracted (p : Str) : Str := dropTrailingCommaWs (pyStrip p)

/-- The `hospital_patterns` loop on one message content: first pattern whose
match cleans to a non-empty string wins. -/
def tryHospitalPatterns : List (Re × Bool) → Str → Option Str
  | [], _ => none
  | (r, hasGrp) :: rest, content =>
    match searchRe r none content with
    | some (full, _, g) =>
      let raw := if hasGrp then (lookupGroup g 1).getD [] else full
      let cleaned := cleanExtracted raw
      if cleaned.isEmpty then tryHospitalPatterns rest content else some cleaned
    | none => tryHospitalPatterns rest content

/-- Place-of-birth extraction from one message content: the JSON regex
first (its `[^"]+` group is taken verbatim), then the hospital patterns. -/
def extractFromContent (content : Str) : Option Str :=
  match searchRe placeJsonRe none content with
  | some (_, _, g) => lookupGroup g 1
  | none => tryHospitalPatterns hospitalPatternList content

/-- The message loop of `call_external_service`: first message that yields a
place of birth wins. -/
def extractPlaceOfBirth : List Str → Option Str
  | [] => none
  | m :: rest =>
    match extractFromContent m with
    | some p => some p
    | none => extractPlaceOfBirth rest

/-- The three dict shapes `call_external_service` returns: a verification
report, the no-place-found report (which carries an `error` field), and the
`except` handler's `\x7b"error": str(e)\x7d`. -/
inductive CesResult where
  | verified : Str → VerifyResult → CesResult
  | noPlace : CesResult
  | exn : Str → CesResult
deriving DecidableEq

/-- Does the returned dict carry an `"error"` field? -/
def CesResult.hasErrorField : CesResult → Bool
  | .verified _ _ => false
  | .noPlace => true
  | .exn _ => true

/-- `call_external_service` with its broad `except` modelled by `exn`. -/
def call_external_service (exn : Option Str) (msgs : List Str) : CesResult :=
  match exn with
  | some e => .exn e
  | none =>
    match extractPlaceOfBirth msgs with
    | some p => .verified p (verify_place_of_birth none p)
    | none => .noPlace

example : normalizePlace (charsOf "Westmead Hospital") = charsOf "westmead hospital" := by rfl
example : verify_place_of_birth none (charsOf "Westmead Hospital") = ⟨true, 95/100, none⟩ := by rfl
example :
    verify_place_of_birth none (charsOf "Armidale and New England Hospital, Armidale, NSW, Australia") =
      ⟨true, 95/100, none⟩ := by rfl
example : verify_place_of_birth none (charsOf "Westmead Hospital Annex") = ⟨true, 90/100, none⟩ := by rfl
example : verify_place_of_birth none (charsOf "Springfield General") = ⟨false, 2/10, none⟩ := by rfl
example :
    extractFromContent (charsOf "data \"place_of_birth\": \"Westmead Hospital\" more") =
      some (charsOf "Westmead Hospital") := by rfl
example :
    extractFromContent (charsOf "the place of birth was stated as \"Westmead Hospital\" in the form") =
      some (charsOf "Westmead Hospital") := by rfl
example : validReflection fallbackReflection = true := by rfl

/-! ## `EmbeddingRetriever.normalize_vector` / `resize_embedding`
(embedding_retriever.py lines 40-65)

Vector entries are modelled as exact rationals.  `math.sqrt` is modelled by
an abstract parameter `sqrt : ℚ → ℚ`; none of the verified properties
depend on its values, only on the code's `magnitude == 0` guard.
`int(x)` on the non-negative bucket boundaries is `⌊x⌋`. -/

def target_dimension : Nat := 384

/-- `sum(val * val for val in vector)` (left fold from 0). -/
def vecSumSq (v : List ℚ) : ℚ := v.foldl (fun acc val => acc + val * val) 0

/-- `normalize_vector`: return the vector unchanged when the magnitude is
zero, else divide every entry by the magnitude. -/
def normalize_vector (sqrt : ℚ → ℚ) (vector : List ℚ) : List ℚ :=
  let magnitude := sqrt (vecSumSq vector)
  if magnitude = 0 then vector
  else vector.map (fun val => val / magnitude)

/-- `sum(embedding[j] for j in range(start, end))`. -/
def sumSlice (embedding : List ℚ) (start e : Nat) : ℚ :=
  ((embedding.drop start).take (e - start)).foldl (fun a b => a + b) 0

/-- One entry of the bucket-averaging loop body of `resize_embedding`:
`start = int(i * ratio)`, `end = min(int((i+1) * ratio), len)`, and the slice
average when `start < end` (the entry stays `0.0` otherwise). -/
def bucketEntry (embedding : List ℚ) (ratio : ℚ) (i : Nat) : ℚ :=
  let start := (Rat.floor ((i : ℚ) * ratio)).toNat
  let e := (Rat.floor (((i : ℚ) + 1) * ratio)).toNat
  let e := if e > embedding.length then embedding.length else e
  if start < e then sumSlice embedding start e / ((e - start : ℕ) : ℚ) else 0

/-- The `result` list built by `resize_embedding`'s loop
(`[0.0] * target_dimension` with the in-range buckets filled in). -/
def bucketAveraged (embedding : List ℚ) : List ℚ :=
  let ratio : ℚ := (embedding.length : ℚ) / (target_dimension : ℚ)
  (List.range target_dimension).map (bucketEntry embedding ratio)

/-- `resize_embedding`: identity at the target dimension, otherwise the
normalized bucket-averaged vector. -/
def resize_embedding (sqrt : ℚ → ℚ) (embedding : List ℚ) : List ℚ :=
  if embedding.length = target_dimension then embedding
  else normalize_vector sqrt (bucketAveraged embedding)

/-! ## The pipeline graph (agentic_idp.py lines 232-251 and 345-348) -/

inductive GNode where
  | START_NODE
  | generate
  | store
  | external_process
  | reflect
  | automatic_approval
  | human_approval
  | END_NODE
deriving DecidableEq

/-- The static edges added with `builder.add_edge`. -/
def graphEdges : List (GNode × GNode) :=
  [(.START_NODE, .generate),
   (.generate, .store),
   (.store, .external_process),
   (.external_process, .reflect),
   (.automatic_approval, .END_NODE),
   (.human_approval, .END_NODE)]

/-- LangGraph resolves the string returned by a conditional-edge router to
the node of that name. -/
def nodeOfLabel (s : String) : Option GNode :=
  if s = "generate" then some .generate
  else if s = "store" then some .store
  else if s = "external_process" then some .external_process
  else if s = "reflect" then some .reflect
  else if s = "automatic_approval" then some .automatic_approval
  else if s = "human_approval" then some .human_approval
  else none

/-- One execution step of the compiled graph: a static edge, or the
conditional edge out of `reflect` chosen by `route_after_reflection` on the
current message list.  A conditional step only exists when the router
actually returns a label (`some lbl`); when it raises instead, no
transition takes place. -/
inductive GStep : GNode → GNode → Prop where
  | static : ∀ a b, (a, b) ∈ graphEdges → GStep a b
  | conditional : ∀ (msgs : List Str) (lbl : String) (n : GNode),
      route_after_reflection msgs = some lbl → nodeOfLabel lbl = some n →
      GStep .reflect n

/-- Position of each node in the pipeline order (the two approval nodes are
the two alternatives of the same stage). -/
def orderIndex : GNode → Nat
  | .START_NODE => 0
  | .generate => 1
  | .store => 2
  | .external_process => 3
  | .reflect => 4
  | .automatic_approval => 5
  | .human_approval => 5
  | .END_NODE => 6

example : normalize_vector (fun q => q) [0, 0] = [0, 0] := by rfl
example : normalize_vector (fun q => q) [2, 0] = [1/2, 0] := by rfl

/-! ## Shared lemmas -/

/-- Every branch of the router body produces one of the two labels. -/
theorem routeOnMessage_total (m : Str) :
    routeOnMessage m = "automatic_approval" ∨ routeOnMessage m = "human_approval" := by
  rcases hext : extractConfidence (cleanMessage m) with _ | v
  · right; simp [routeOnMessage, hext]
  · rcases hs : scoreOfJv v with _ | q
    · right; simp [routeOnMessage, hext, hs]
    · by_cases hq : q < 3/4
      · right; simp [routeOnMessage, hext, hs, hq]
      · left; simp [routeOnMessage, hext, hs, hq]

/-- Whenever the router returns (the message list is non-empty, so the
pre-`try` indexing does not raise), the returned label is one of the two. -/
theorem route_after_reflection_total (msgs : List Str) (m : Str)
    (hm : msgs.getLast? = some m) :
    route_after_reflection msgs = some "automatic_approval" ∨
      route_after_reflection msgs = some "human_approval" := by
  rcases routeOnMessage_total m with h | h
  · left; simp [route_after_reflection, hm, h]
  · right; simp [route_after_reflection, hm, h]

/-- `normalize_vector` preserves the length. -/
theorem normalize_vector_length (sqrt : ℚ → ℚ) (v : List ℚ) :
    (normalize_vector sqrt v).length = v.length := by
  unfold normalize_vector
  by_cases h : sqrt (vecSumSq v) = 0
  · simp [h]
  · simp [h]

theorem isPrefixCh_refl (s : Str) : isPrefixCh s s = true := by
  induction s with
  | nil => rfl
  | cons c t ih => simp [isPrefixCh, ih]

theorem containsSub_refl (s : Str) : containsSub s s = true := by
  cases s with
  | nil => rfl
  | cons c t => simp [containsSub, isPrefixCh_refl]

/-! ## The claims -/

/-- C1: for every reflection output text from which the router extracts a
confidence score `s`, `route_after_reflection` returns `"automatic_approval"`
when `s ≥ 0.75` and `"human_approval"` when `s < 0.75`. -/
theorem C1_router_threshold (msgs : List Str) (text : Str) (s : ℚ)
    (hlast : msgs.getLast? = some text)
    (hext : extractConfidence (cleanMessage text) = some (Jv.num s)) :
    (3/4 ≤ s → route_after_reflection msgs = some "automatic_approval") ∧
    (s < 3/4 → route_after_reflection msgs = some "human_approval") := by
  constructor
  · intro hge
    simp [route_after_reflection, hlast, routeOnMessage, hext, scoreOfJv, not_lt.mpr hge]
  · intro hlt
    simp [route_after_reflection, hlast, routeOnMessage, hext, scoreOfJv, hlt]

/-- Witness for C1 at a concrete reflection output with score 0.8. -/
theorem C1_router_threshold_witness :
    route_after_reflection
      [charsOf "\x7b\"confidence_score\": 0.8, \"message\": \"ok\"\x7d"] =
      some "automatic_approval" :=
  (C1_router_threshold
    [charsOf "\x7b\"confidence_score\": 0.8, \"message\": \"ok\"\x7d"]
    (charsOf "\x7b\"confidence_score\": 0.8, \"message\": \"ok\"\x7d")
    (4/5) (by rfl) (by rfl)).1 (by norm_num)

/-- C2: the extraction inside `route_after_reflection` tries the strict
JSON-object regex first, then the key-value regex, then the bare-decimal
fallback; a later approach is consulted only when every earlier one yielded
no score. -/
theorem C2_extraction_order (s : Str) :
    (∀ v, approach1 s = some v → extractConfidence s = some v) ∧
    (approach1 s = none → ∀ q, approach2 s = some q →
      extractConfidence s = some (Jv.num q)) ∧
    (approach1 s = none → approach2 s = none →
      extractConfidence s = (approach3 s).map Jv.num) := by
  refine ⟨?_, ?_, ?_⟩
  · intro v h; simp [extractConfidence, h]
  · intro h1 q h2; simp [extractConfidence, h1, h2]
  · intro h1 h2; simp [extractConfidence, h1, h2]

/-- Witness for C2 on an input without braces: approach 1 fails, approach 2
extracts 0.9. -/
theorem C2_extraction_order_witness :
    extractConfidence (charsOf "\"confidence_score\": 0.9") = some (Jv.num (9/10)) :=
  (C2_extraction_order _).2.1 (by rfl) (9/10) (by rfl)

/-- Counterexample to C3: on the reflection text `"confidence_score": 7.5`
the router's extraction (approach 2) yields the score 7.5, which is not in
`[0,1]`. -/
theorem C3_counterexample :
    extractConfidence
        (cleanMessage (charsOf "\"confidence_score\": 7.5")) = some (Jv.num (15/2)) ∧
      ¬((15/2 : ℚ) ≤ 1) :=
  ⟨by rfl, by norm_num⟩

/-- C3 (amended): only the bare-decimal fallback (approach 3) guarantees a
score in `[0,1]` — its own range filter enforces it; the JSON-object and
key-value approaches can extract scores outside `[0,1]`. -/
theorem C3_fallback_score_in_range (s : Str) (q : ℚ) (h : approach3 s = some q) :
    0 ≤ q ∧ q ≤ 1 := by
  unfold approach3 at h
  have h2 := List.find?_some h
  simpa using h2

/-- Witness for the amended C3 at a concrete input. -/
theorem C3_fallback_score_in_range_witness : (0 : ℚ) ≤ 41/50 ∧ (41/50 : ℚ) ≤ 1 :=
  C3_fallback_score_in_range (charsOf "value 0.82 here") (41/50) (by rfl)

/-- C4: the reflection node consults the LLM for at most 3 attempts (its
result is already determined by the oracle's answers at attempts 0, 1, 2),
and it always terminates with some response — the fallback or one of the
(stripped) attempt responses — instead of retrying further. -/
theorem C4_reflection_bounded_retries :
    (∀ o o2 : Nat → Except Str Str, (∀ i ∈ ([0, 1, 2] : List Nat), o i = o2 i) →
      reflection_node o = reflection_node o2) ∧
    (∀ o : Nat → Except Str Str,
      reflection_node o = fallbackReflection ∨
        ∃ i ∈ ([0, 1, 2] : List Nat), ∃ raw, o i = .ok raw ∧
          reflection_node o = pyStrip raw) := by
  constructor
  · intro o o2 h
    have h0 := h 0 (by simp)
    have h1 := h 1 (by simp)
    have h2 := h 2 (by simp)
    unfold reflection_node reflectionAttempt1 reflectionAttempt2
    rw [h0, h1, h2]
  · intro o
    cases h0 : o 0 with
    | ok r0 =>
      by_cases v0 : validReflection (pyStrip r0) = true
      · right
        exact ⟨0, by simp, r0, h0, by simp [reflection_node, h0, v0]⟩
      · cases h1 : o 1 with
        | ok r1 =>
          by_cases v1 : validReflection (pyStrip r1) = true
          · right
            exact ⟨1, by simp, r1, h1,
              by simp [reflection_node, reflectionAttempt1, h0, h1, v0, v1]⟩
          · cases h2 : o 2 with
            | ok r2 =>
              right
              exact ⟨2, by simp, r2, h2,
                by simp [reflection_node, reflectionAttempt1, reflectionAttempt2,
                  h0, h1, h2, v0, v1]⟩
            | error e2 =>
              left
              simp [reflection_node, reflectionAttempt1, reflectionAttempt2,
                h0, h1, h2, v0, v1]
        | error e1 =>
          cases h2 : o 2 with
          | ok r2 =>
            right
            exact ⟨2, by simp, r2, h2,
              by simp [reflection_node, reflectionAttempt1, reflectionAttempt2,
                h0, h1, h2, v0]⟩
          | error e2 =>
            left
            simp [reflection_node, reflectionAttempt1, reflectionAttempt2,
              h0, h1, h2, v0]
    | error e0 =>
      cases h1 : o 1 with
      | ok r1 =>
        by_cases v1 : validReflection (pyStrip r1) = true
        · right
          exact ⟨1, by simp, r1, h1,
            by simp [reflection_node, reflectionAttempt1, h0, h1, v1]⟩
        · cases h2 : o 2 with
          | ok r2 =>
            right
            exact ⟨2, by simp, r2, h2,
              by simp [reflection_node, reflectionAttempt1, reflectionAttempt2,
                h0, h1, h2, v1]⟩
          | error e2 =>
            left
            simp [reflection_node, reflectionAttempt1, reflectionAttempt2,
              h0, h1, h2, v1]
      | error e1 =>
        cases h2 : o 2 with
        | ok r2 =>
          right
          exact ⟨2, by simp, r2, h2,
            by simp [reflection_node, reflectionAttempt1, reflectionAttempt2, h0, h1, h2]⟩
        | error e2 =>
          left
          simp [reflection_node, reflectionAttempt1, reflectionAttempt2, h0, h1, h2]

/-- Witness for C4: two oracles agreeing on attempts 0-2 but not beyond give
the same reflection result. -/
theorem C4_reflection_bounded_retries_witness :
    reflection_node (fun _ => Except.error (charsOf "down")) =
      reflection_node (fun i =>
        if i < 3 then Except.error (charsOf "down") else Except.ok (charsOf "late")) :=
  C4_reflection_bounded_retries.1 _ _ (by intro i hi; fin_cases hi <;> rfl)

/-- C5: an exception on the final reflection attempt (the earlier attempts
not having returned) produces exactly the fallback JSON message — whose
`confidence_score` parses as 0.5 — and never propagates; and the broad
`except` handlers of `verify_place_of_birth` and `call_external_service`
turn any internal exception into a dict with an `error` field instead of
raising. -/
theorem C5_broad_except_fallbacks :
    (∀ (o : Nat → Except Str Str) (e : Str),
      notEarlyReturn o 0 = true → notEarlyReturn o 1 = true → o 2 = .error e →
        reflection_node o = fallbackReflection) ∧
    approach1 fallbackReflection = some (Jv.num (1/2)) ∧
    (∀ (e : Str) (p : Str),
      verify_place_of_birth (some e) p = ⟨false, 0, some e⟩) ∧
    (∀ (e : Str) (msgs : List Str),
      call_external_service (some e) msgs = .exn e ∧
        (call_external_service (some e) msgs).hasErrorField = true) := by
  refine ⟨?_, by rfl, fun e p => rfl, fun e msgs => ⟨rfl, rfl⟩⟩
  intro o e hn0 hn1 h2
  unfold notEarlyReturn at hn0 hn1
  cases h0 : o 0 with
  | ok r0 =>
    rw [h0] at hn0
    simp at hn0
    cases h1 : o 1 with
    | ok r1 =>
      rw [h1] at hn1
      simp at hn1
      simp [reflection_node, reflectionAttempt1, reflectionAttempt2, h0, h1, h2, hn0, hn1]
    | error e1 =>
      simp [reflection_node, reflectionAttempt1, reflectionAttempt2, h0, h1, h2, hn0]
  | error e0 =>
    cases h1 : o 1 with
    | ok r1 =>
      rw [h1] at hn1
      simp at hn1
      simp [reflection_node, reflectionAttempt1, reflectionAttempt2, h0, h1, h2, hn1]
    | error e1 =>
      simp [reflection_node, reflectionAttempt1, reflectionAttempt2, h0, h1, h2]

/-- Witness for C5: an oracle whose three attempts all raise yields the
fallback message. -/
theorem C5_broad_except_fallbacks_witness :
    reflection_node (fun _ => Except.error (charsOf "timeout")) = fallbackReflection :=
  C5_broad_except_fallbacks.1 _ (charsOf "timeout") (by rfl) (by rfl) rfl

/-- C6: `verify_place_of_birth` looks the normalized (lowercased, stripped,
suffix-removed) name up in the in-memory hospital dict and returns
`place_verified: True` with score 0.95 on an exact key match, 0.90 on a
containment (partial) match, and `place_verified: False` with score 0.2
when no key matches. -/
theorem C6_verify_place_scores (p : Str) :
    (normalizePlace p ∈ knownHospitalKeys →
      verify_place_of_birth none p = ⟨true, 95/100, none⟩) ∧
    (normalizePlace p ∉ knownHospitalKeys →
      (∃ k ∈ knownHospitalKeys,
        (containsSub (normalizePlace p) k || containsSub k (normalizePlace p)) = true) →
      verify_place_of_birth none p = ⟨true, 90/100, none⟩) ∧
    ((∀ k ∈ knownHospitalKeys,
        (containsSub (normalizePlace p) k || containsSub k (normalizePlace p)) = false) →
      verify_place_of_birth none p = ⟨false, 2/10, none⟩) := by
  refine ⟨?_, ?_, ?_⟩
  · intro hmem
    simp [verify_place_of_birth, verifyPlaceBody, hmem]
  · intro hmem hex
    have hsome : (knownHospitalKeys.find? (fun k =>
        containsSub (normalizePlace p) k || containsSub k (normalizePlace p))).isSome := by
      rw [List.find?_isSome]
      obtain ⟨k, hk, hpred⟩ := hex
      exact ⟨k, hk, hpred⟩
    obtain ⟨r, hr⟩ := Option.isSome_iff_exists.mp hsome
    simp [verify_place_of_birth, verifyPlaceBody, hmem, hr]
  · intro hall
    have hmem : normalizePlace p ∉ knownHospitalKeys := by
      intro hmem
      have := hall _ hmem
      simp [containsSub_refl] at this
    have hnone : knownHospitalKeys.find? (fun k =>
        containsSub (normalizePlace p) k || containsSub k (normalizePlace p)) = none := by
      rw [List.find?_eq_none]
      intro k hk
      simp [hall k hk]
    simp [verify_place_of_birth, verifyPlaceBody, hmem, hnone]

/-- Witness for C6 at the exact key match `"Westmead Hospital"`. -/
theorem C6_verify_place_scores_witness :
    verify_place_of_birth none (charsOf "Westmead Hospital") = ⟨true, 95/100, none⟩ :=
  (C6_verify_place_scores (charsOf "Westmead Hospital")).1 (by decide)

/-- Inversion for `GStep`: every step is a static edge, or a conditional step
out of `reflect` into one of the two approval nodes. -/
theorem gstepInv {a b : GNode} (h : GStep a b) :
    (a, b) ∈ graphEdges ∨
      (a = .reflect ∧ (b = .automatic_approval ∨ b = .human_approval)) := by
  cases h with
  | static a b hmem => exact Or.inl hmem
  | conditional msgs lbl n hroute hn =>
    refine Or.inr ⟨rfl, ?_⟩
    have hlbl : lbl = "automatic_approval" ∨ lbl = "human_approval" := by
      rcases hl : msgs.getLast? with _ | m
      · simp [route_after_reflection, hl] at hroute
      · simp only [route_after_reflection, hl, Option.some.injEq] at hroute
        rw [← hroute]
        exact routeOnMessage_total m
    rcases hlbl with rfl | rfl
    · left
      have hauto : nodeOfLabel "automatic_approval" = some GNode.automatic_approval := by rfl
      rw [hauto] at hn
      exact (Option.some.inj hn).symm
    · right
      have hhum : nodeOfLabel "human_approval" = some GNode.human_approval := by rfl
      rw [hhum] at hn
      exact (Option.some.inj hn).symm

/-- C7: the pipeline graph is fixed and sequential — from the start the step
relation passes through `generate`, `store`, `external_process`, `reflect`
in that order; from `reflect` it goes only to `automatic_approval` or
`human_approval`, each of which leads only to the end; the end has no
successor; and every step advances the pipeline stage by exactly one, so no
node ever executes out of order. -/
theorem C7_graph_fixed_sequential :
    (∀ b, GStep .START_NODE b ↔ b = .generate) ∧
    (∀ b, GStep .generate b ↔ b = .store) ∧
    (∀ b, GStep .store b ↔ b = .external_process) ∧
    (∀ b, GStep .external_process b ↔ b = .reflect) ∧
    (∀ b, GStep .reflect b ↔ (b = .automatic_approval ∨ b = .human_approval)) ∧
    (∀ b, GStep .automatic_approval b ↔ b = .END_NODE) ∧
    (∀ b, GStep .human_approval b ↔ b = .END_NODE) ∧
    (∀ b, ¬ GStep .END_NODE b) ∧
    (∀ a b, GStep a b → orderIndex b = orderIndex a + 1) := by
  refine ⟨?_, ?_, ?_, ?_, ?_, ?_, ?_, ?_, ?_⟩
  · intro b
    constructor
    · intro h
      rcases gstepInv h with hmem | ⟨heq, _⟩
      · simpa [graphEdges] using hmem
      · simp at heq
    · rintro rfl; exact GStep.static _ _ (by simp [graphEdges])
  · intro b
    constructor
    · intro h
      rcases gstepInv h with hmem | ⟨heq, _⟩
      · simpa [graphEdges] using hmem
      · simp at heq
    · rintro rfl; exact GStep.static _ _ (by simp [graphEdges])
  · intro b
    constructor
    · intro h
      rcases gstepInv h with hmem | ⟨heq, _⟩
      · simpa [graphEdges] using hmem
      · simp at heq
    · rintro rfl; exact GStep.static _ _ (by simp [graphEdges])
  · intro b
    constructor
    · intro h
      rcases gstepInv h with hmem | ⟨heq, _⟩
      · simpa [graphEdges] using hmem
      · simp at heq
    · rintro rfl; exact GStep.static _ _ (by simp [graphEdges])
  · intro b
    constructor
    · intro h
      rcases gstepInv h with hmem | ⟨_, hb⟩
      · simp [graphEdges] at hmem
      · exact hb
    · rintro (rfl | rfl)
      · exact GStep.conditional [charsOf "0.8"] "automatic_approval" _ (by rfl) (by rfl)
      · exact GStep.conditional [charsOf "confidence is 0.4"] "human_approval" _ (by rfl) (by rfl)
  · intro b
    constructor
    · intro h
      rcases gstepInv h with hmem | ⟨heq, _⟩
      · simpa [graphEdges] using hmem
      · simp at heq
    · rintro rfl; exact GStep.static _ _ (by simp [graphEdges])
  · intro b
    constructor
    · intro h
      rcases gstepInv h with hmem | ⟨heq, _⟩
      · simpa [graphEdges] using hmem
      · simp at heq
    · rintro rfl; exact GStep.static _ _ (by simp [graphEdges])
  · intro b h
    rcases gstepInv h with hmem | ⟨heq, _⟩
    · simp [graphEdges] at hmem
    · simp at heq
  · intro a b h
    rcases gstepInv h with hmem | ⟨rfl, hb⟩
    · simp [graphEdges, Prod.ext_iff] at hmem
      rcases hmem with ⟨rfl, rfl⟩ | ⟨rfl, rfl⟩ | ⟨rfl, rfl⟩ | ⟨rfl, rfl⟩ | ⟨rfl, rfl⟩ | ⟨rfl, rfl⟩ <;> rfl
    · rcases hb with rfl | rfl <;> rfl

/-- Witness for C7: the start node steps into `generate`. -/
theorem C7_graph_fixed_sequential_witness : GStep .START_NODE .generate :=
  (C7_graph_fixed_sequential.1 .generate).mpr rfl

/-- Counterexample to C8: on the state with an empty message list the code
raises `IndexError` at `state["messages"][-1]` (line 258) BEFORE the `try`
block (line 264), so the exception propagates and the router returns no
label at all — it is not total over the two routing labels. -/
theorem C8_counterexample :
    route_after_reflection [] = none ∧
      ¬(route_after_reflection [] = some "automatic_approval" ∨
        route_after_reflection [] = some "human_approval") :=
  ⟨rfl, by decide⟩

/-- C8 (amended): on every state with a non-empty message list the router
returns one of the two labels, and it returns `"human_approval"` whenever
no confidence score can be extracted from the last message or an exception
occurs inside the routing `try` block (a non-numeric extracted score
raising `TypeError` at the threshold comparison); on an empty message list
the `IndexError` from `state["messages"][-1]` is raised before the `try`
and propagates, so no label is returned. -/
theorem C8_router_defaults_to_human (msgs : List Str) :
    (∀ m, msgs.getLast? = some m →
      (route_after_reflection msgs = some "automatic_approval" ∨
        route_after_reflection msgs = some "human_approval")) ∧
    (msgs.getLast? = none → route_after_reflection msgs = none) ∧
    (∀ m, msgs.getLast? = some m → extractConfidence (cleanMessage m) = none →
      route_after_reflection msgs = some "human_approval") ∧
    (∀ m v, msgs.getLast? = some m → extractConfidence (cleanMessage m) = some v →
      scoreOfJv v = none → route_after_reflection msgs = some "human_approval") := by
  refine ⟨?_, ?_, ?_, ?_⟩
  · intro m hm
    exact route_after_reflection_total msgs m hm
  · intro h
    simp [route_after_reflection, h]
  · intro m hm hext
    simp [route_after_reflection, hm, routeOnMessage, hext]
  · intro m v hm hext hs
    simp [route_after_reflection, hm, routeOnMessage, hext, hs]

/-- Witness for the amended C8: a message from which no score can be
extracted routes to human review. -/
theorem C8_router_defaults_to_human_witness :
    route_after_reflection [charsOf "no score at all"] = some "human_approval" :=
  (C8_router_defaults_to_human [charsOf "no score at all"]).2.2.1
    (charsOf "no score at all") rfl (by rfl)

/-- C9: `resize_embedding` always returns a list of exactly 384 entries; an
input already of length 384 is returned unchanged (without normalization);
any other input yields the bucket-averaged vector passed through
`normalize_vector`. -/
theorem C9_resize_embedding_dimension (sqrt : ℚ → ℚ) (v : List ℚ) :
    (resize_embedding sqrt v).length = 384 ∧
    (v.length = 384 → resize_embedding sqrt v = v) ∧
    (v.length ≠ 384 → resize_embedding sqrt v = normalize_vector sqrt (bucketAveraged v)) := by
  refine ⟨?_, ?_, ?_⟩
  · unfold resize_embedding
    by_cases h : v.length = target_dimension
    · simp only [h, if_pos]
      rfl
    · rw [if_neg h, normalize_vector_length]
      simp [bucketAveraged, target_dimension]
  · intro h
    simp [resize_embedding, target_dimension, h]
  · intro h
    simp only [resize_embedding, target_dimension]
    rw [if_neg h]

/-- Witness for C9: a length-384 input comes back unchanged. -/
theorem C9_resize_embedding_dimension_witness :
    resize_embedding (fun q => q) (List.replicate 384 (0 : ℚ)) =
      List.replicate 384 (0 : ℚ) :=
  (C9_resize_embedding_dimension (fun q => q) (List.replicate 384 (0 : ℚ))).2.1 (by simp)

/-- C10: `normalize_vector` is total and never divides by zero — a vector of
zero magnitude is returned unchanged, the output always has the input's
length, and division only happens with the (nonzero) magnitude as divisor. -/
theorem C10_normalize_vector_safety (sqrt : ℚ → ℚ) (v : List ℚ) :
    (sqrt (vecSumSq v) = 0 → normalize_vector sqrt v = v) ∧
    (normalize_vector sqrt v).length = v.length ∧
    (sqrt (vecSumSq v) ≠ 0 →
      normalize_vector sqrt v = v.map (fun val => val / sqrt (vecSumSq v))) := by
  refine ⟨?_, normalize_vector_length sqrt v, ?_⟩
  · intro h
    simp [normalize_vector, h]
  · intro h
    simp [normalize_vector, h]

/-- Witness for C10: the zero vector has magnitude zero (under the identity
in place of `math.sqrt`) and is returned unchanged. -/
theorem C10_normalize_vector_safety_witness :
    normalize_vector (fun q => q) [0, 0] = [0, 0] :=
  (C10_normalize_vector_safety (fun q => q) [0, 0]).1 (by decide)
